import Mathlib

set_option maxRecDepth 100000

/-
Shallow embedding of src/src/web_server.py (rsync-tailscale-docker):
the bounded log reader `safe_read_log`, the error-summary generator
`_generate_error_summary`, the status classifier `get_sync_status`, and the
POST handler `do_POST` (/clear, /run).

Python strings are modelled as `List Char`; file bytes as `List Nat`
(each < 256).  ASCII case mapping and ASCII whitespace model `str.upper`
and `str.strip` (all literals compared by the program are ASCII).
-/

namespace WebServer

/-- Character list of a string literal (Python `str` model). -/
def pstr (s : String) : List Char := s.data

/-- ASCII whitespace as stripped by Python `str.strip()`. -/
def isPySpace (c : Char) : Bool :=
  c.toNat = 32 || c.toNat = 9 || c.toNat = 10 || c.toNat = 13 ||
  c.toNat = 11 || c.toNat = 12

/-- `str.upper` on one character (ASCII range; identity elsewhere). -/
def pyUpperChar (c : Char) : Char :=
  if 97 ≤ c.toNat && c.toNat ≤ 122 then Char.ofNat (c.toNat - 32) else c

/-- `str.upper` (ASCII model). -/
def pyUpper (s : List Char) : List Char := s.map pyUpperChar

/-- Python `str.split(sep)` for a one-character separator:
`"".split` gives `[""]`, interior empty pieces are kept. -/
def splitOnChar (sep : Char) : List Char → List (List Char)
  | [] => [[]]
  | c :: rest =>
    match splitOnChar sep rest with
    | [] => [[c]]
    | p :: ps => if c = sep then [] :: p :: ps else (c :: p) :: ps

/-- Line-break characters recognised by Python `str.splitlines`. -/
def isLineBreak (c : Char) : Bool :=
  c.toNat = 10 || c.toNat = 13 || c.toNat = 11 || c.toNat = 12 ||
  c.toNat = 28 || c.toNat = 29 || c.toNat = 30 || c.toNat = 133 ||
  c.toNat = 8232 || c.toNat = 8233

/-- Python `str.splitlines()`: no trailing empty line for a final break,
`"\r\n"` counts as a single break. -/
def pySplitLines : List Char → List (List Char)
  | [] => []
  | '\r' :: '\n' :: rest => [] :: pySplitLines rest
  | c :: rest =>
    if isLineBreak c then [] :: pySplitLines rest
    else
      match pySplitLines rest with
      | [] => [[c]]
      | l :: ls => (c :: l) :: ls

/-- Universal-newline translation done by text-mode `open` :
`"\r\n"` and `"\r"` become `"\n"`. -/
def translateNewlines : List Char → List Char
  | [] => []
  | '\r' :: '\n' :: rest => '\n' :: translateNewlines rest
  | '\r' :: rest => '\n' :: translateNewlines rest
  | c :: rest => c :: translateNewlines rest

/-- `f.readlines()` followed by `line.rstrip(chr(10))` on each line, for
already newline-translated text: split on `'\n'`, with no empty final
piece when the text ends in a newline. -/
def pyReadLines (s : List Char) : List (List Char) :=
  if s = [] then []
  else if s.getLast? = some '\n' then (splitOnChar '\n' s).dropLast
  else splitOnChar '\n' s

/-- Python `str.strip()` (ASCII-whitespace model): drop whitespace from
the left, then from the right. -/
def pyStrip (s : List Char) : List Char :=
  ((s.dropWhile isPySpace).reverse.dropWhile isPySpace).reverse

/-! ### UTF-8 decoding (`bytes.decode('utf-8')`, strict and `errors='ignore'`). -/

/-- A UTF-8 continuation byte. -/
def isCont (b : Nat) : Bool := 128 ≤ b && b ≤ 191

/-- Range allowed for the second byte of a three-byte sequence
(excludes overlong encodings and surrogates, as CPython does). -/
def cont2Of3Ok (b0 b1 : Nat) : Bool :=
  if b0 = 224 then 160 ≤ b1 && b1 ≤ 191
  else if b0 = 237 then 128 ≤ b1 && b1 ≤ 159
  else isCont b1

/-- Range allowed for the second byte of a four-byte sequence. -/
def cont2Of4Ok (b0 b1 : Nat) : Bool :=
  if b0 = 240 then 144 ≤ b1 && b1 ≤ 191
  else if b0 = 244 then 128 ≤ b1 && b1 ≤ 143
  else isCont b1

/-- Decode one well-formed UTF-8 sequence at the head of the byte list:
`some (codepoint, byteLength)`, or `none` when the head is ill-formed. -/
def utf8DecodeOne : List Nat → Option (Nat × Nat)
  | [] => none
  | b0 :: rest =>
    if b0 < 128 then some (b0, 1)
    else if 194 ≤ b0 && b0 ≤ 223 then
      match rest with
      | b1 :: _ => if isCont b1 then some ((b0 - 192) * 64 + (b1 - 128), 2) else none
      | [] => none
    else if 224 ≤ b0 && b0 ≤ 239 then
      match rest with
      | b1 :: b2 :: _ =>
        if cont2Of3Ok b0 b1 && isCont b2 then
          some ((b0 - 224) * 4096 + (b1 - 128) * 64 + (b2 - 128), 3)
        else none
      | _ => none
    else if 240 ≤ b0 && b0 ≤ 244 then
      match rest with
      | b1 :: b2 :: b3 :: _ =>
        if cont2Of4Ok b0 b1 && isCont b2 && isCont b3 then
          some ((b0 - 240) * 262144 + (b1 - 128) * 4096 + (b2 - 128) * 64 + (b3 - 128), 4)
        else none
      | _ => none
    else none

/-- For an ill-formed sequence at the head: the CPython error reason and
the length of the maximal subpart to skip under `errors='ignore'`. -/
def utf8ErrorInfo : List Nat → List Char × Nat
  | [] => (pstr "unexpected end of data", 0)
  | b0 :: rest =>
    if b0 < 128 then ([], 1)
    else if 194 ≤ b0 && b0 ≤ 223 then
      match rest with
      | [] => (pstr "unexpected end of data", 1)
      | b1 :: _ =>
        if isCont b1 then ([], 2) else (pstr "invalid continuation byte", 1)
    else if 224 ≤ b0 && b0 ≤ 239 then
      match rest with
      | [] => (pstr "unexpected end of data", 1)
      | b1 :: rest1 =>
        if cont2Of3Ok b0 b1 then
          match rest1 with
          | [] => (pstr "unexpected end of data", 2)
          | b2 :: _ =>
            if isCont b2 then ([], 3) else (pstr "invalid continuation byte", 2)
        else (pstr "invalid continuation byte", 1)
    else if 240 ≤ b0 && b0 ≤ 244 then
      match rest with
      | [] => (pstr "unexpected end of data", 1)
      | b1 :: rest1 =>
        if cont2Of4Ok b0 b1 then
          match rest1 with
          | [] => (pstr "unexpected end of data", 2)
          | b2 :: rest2 =>
            if isCont b2 then
              match rest2 with
              | [] => (pstr "unexpected end of data", 3)
              | b3 :: _ =>
                if isCont b3 then ([], 4)
                else (pstr "invalid continuation byte", 3)
            else (pstr "invalid continuation byte", 2)
        else (pstr "invalid continuation byte", 1)
    else (pstr "invalid start byte", 1)

/-- `bytes.decode('utf-8', errors='ignore')`: skip the maximal ill-formed
subpart and continue.  `fuel` bounds the recursion (each step consumes at
least one byte, so `fuel = length` is enough). -/
def utf8DecodeIgnoreGo : List Nat → Nat → List Char
  | _, 0 => []
  | [], _ => []
  | bs@(_ :: rest), fuel + 1 =>
    match utf8DecodeOne bs with
    | some (cp, len) => Char.ofNat cp :: utf8DecodeIgnoreGo (bs.drop len) fuel
    | none =>
      match (utf8ErrorInfo bs).2 with
      | 0 => utf8DecodeIgnoreGo rest fuel
      | skip => utf8DecodeIgnoreGo (bs.drop skip) fuel

/-- `bytes.decode('utf-8', errors='ignore')`. -/
def utf8DecodeIgnore (bs : List Nat) : List Char := utf8DecodeIgnoreGo bs bs.length

/-- An apostrophe character (U+0027), used in CPython error messages. -/
def apos : Char := Char.ofNat 39

/-- Lower-case hexadecimal digit. -/
def hexDigit (n : Nat) : Char :=
  if n < 10 then Char.ofNat (48 + n) else Char.ofNat (87 + n)

/-- `0xhh` rendering of a byte, as in CPython decode errors. -/
def byteHex (b : Nat) : List Char :=
  pstr "0x" ++ [hexDigit (b / 16 % 16), hexDigit (b % 16)]

/-- The message of a `UnicodeDecodeError` raised by strict decoding, for
the ill-formed sequence at the head of `bs` starting at file position
`pos`. -/
def decodeErrorMessage (bs : List Nat) (pos : Nat) : List Char :=
  let reason := (utf8ErrorInfo bs).1
  let skip := (utf8ErrorInfo bs).2
  let b0 := bs.headD 0
  [apos] ++ pstr "utf-8" ++ [apos] ++ pstr " codec can" ++ [apos] ++
  (if skip ≤ 1 then
    pstr "t decode byte " ++ byteHex b0 ++ pstr " in position " ++ pstr (Nat.repr pos)
  else
    pstr "t decode bytes in position " ++ pstr (Nat.repr pos) ++ pstr "-" ++
      pstr (Nat.repr (pos + skip - 1))) ++
  pstr ": " ++ reason

/-- `bytes.decode('utf-8')` (strict): characters, or the
`UnicodeDecodeError` message of the first ill-formed sequence. -/
def utf8DecodeStrictGo : List Nat → Nat → Nat → Except (List Char) (List Char)
  | _, _, 0 => .ok []
  | [], _, _ => .ok []
  | bs@(_ :: _), pos, fuel + 1 =>
    match utf8DecodeOne bs with
    | some (cp, len) =>
      (utf8DecodeStrictGo (bs.drop len) (pos + len) fuel).map (Char.ofNat cp :: ·)
    | none => .error (decodeErrorMessage bs pos)

/-- `bytes.decode('utf-8')` with strict error handling. -/
def utf8DecodeStrict (bs : List Nat) : Except (List Char) (List Char) :=
  utf8DecodeStrictGo bs 0 bs.length

/-- Bytes of an ASCII string (used to build concrete log files). -/
def asciiBytes (s : String) : List Nat := s.data.map (fun c => c.toNat)

/-! ### `EnhancedLogHandler._generate_error_summary` -/

/-- `error_keywords` (web_server.py line 93). -/
def error_keywords : List (List Char) :=
  [pstr "[ERROR]", pstr "[CRITICAL]", pstr "ERROR:", pstr "CRITICAL:",
   pstr "Failed", pstr "Exception:", pstr "Traceback", pstr "Error:"]

/-- `max_errors_to_show` (web_server.py line 94). -/
def max_errors_to_show : Nat := 15

/-- `max_summary_chars` (web_server.py line 95). -/
def max_summary_chars : Nat := 2000

/-- `MAX_LOG_SIZE` (web_server.py line 19): 500 MB. -/
def MAX_LOG_SIZE : Nat := 1024 * 1024 * 500

/-- Python's substring test `needle in hay`. -/
def pyContains (needle : List Char) : List Char → Bool
  | [] => needle.isEmpty
  | hay@(_ :: rest) => needle.isPrefixOf hay || pyContains needle rest

/-- `any(keyword.upper() in line_upper for keyword in error_keywords)`
with `line_upper = line.upper()` (web_server.py lines 101-102). -/
def isErrorLine (line : List Char) : Bool :=
  error_keywords.any fun kw => pyContains (pyUpper kw) (pyUpper line)

/-- `f'Line {i}: {line}'` (web_server.py line 104). -/
def errorEntry (i : Nat) (line : List Char) : List Char :=
  pstr "Line " ++ pstr (Nat.repr i) ++ pstr ": " ++ line

/-- The scanning loop of `_generate_error_summary` (lines 97-105):
walk the lines numbering from the start index, collect `errorEntry`s,
and stop as soon as `max_errors_to_show * 2` entries have been found. -/
def collectErrors : List (List Char) → Nat → List (List Char) → List (List Char)
  | [], _, acc => acc.reverse
  | line :: ls, i, acc =>
    if max_errors_to_show * 2 ≤ acc.length then acc.reverse
    else if isErrorLine line then collectErrors ls (i + 1) (errorEntry i line :: acc)
    else collectErrors ls (i + 1) acc

/-- `'='*50`. -/
def sep50 : List Char := List.replicate 50 '='

/-- `summary_header` (lines 111-114). -/
def headerCore (error_count : Nat) (truncated : Bool) : List Char :=
  pstr "🔴 ERROR SUMMARY: " ++ pstr (Nat.repr error_count) ++ pstr " error" ++
    (if error_count ≠ 1 then pstr "s" else []) ++ pstr " found" ++
    (if truncated then pstr " (in displayed portion)" else []) ++
    pstr "\n" ++ sep50 ++ pstr "\n"

/-- `summary_content` before the final size cap (lines 110-123):
header, the first 15 entries joined by newline, the "... and N more
errors" suffix when more were collected, and the trailing separator. -/
def assembledSummary (lines : List (List Char)) (offset : Nat) (truncated : Bool) :
    List Char :=
  let errors := collectErrors lines (1 + offset) []
  let error_lines :=
    (List.intercalate (pstr "\n") (errors.take max_errors_to_show)) ++
      (if max_errors_to_show < errors.length then
        pstr "\n... and " ++ pstr (Nat.repr (errors.length - max_errors_to_show)) ++
          pstr " more errors (see full log below)"
      else [])
  headerCore errors.length truncated ++ error_lines ++ pstr "\n" ++ sep50 ++ pstr "\n\n"

/-- The fixed truncation notice appended by the final size cap (line 128). -/
def summaryTruncMessage : List Char :=
  pstr "\n[ERROR SUMMARY TRUNCATED - too many errors]\n" ++ sep50 ++ pstr "\n\n"

/-- `EnhancedLogHandler._generate_error_summary(lines, offset, truncated)`
(web_server.py lines 90-131). -/
def generate_error_summary (lines : List (List Char)) (offset : Nat) (truncated : Bool) :
    List Char :=
  let errors := collectErrors lines (1 + offset) []
  if errors.isEmpty then
    pstr "🟢 ERROR SUMMARY: No errors found\n" ++ sep50 ++ pstr "\n\n"
  else
    let summary_content := assembledSummary lines offset truncated
    if max_summary_chars < summary_content.length then
      summary_content.take (max_summary_chars - 100) ++ summaryTruncMessage
    else summary_content

/-! ### `EnhancedLogHandler.safe_read_log` -/

/-- The state of one file as the reader can observe it: absent, present
with raw bytes, or failing with an I/O error whose description is `msg`
(any `Exception` raised while reading, e.g. permission denied). -/
inductive FileSys where
  | missing
  | present (bytes : List Nat)
  | ioError (msg : List Char)

/-- The oversize path of `safe_read_log` (lines 59-70): last
`MAX_LOG_SIZE` bytes, lenient decode, `splitlines`, summary with
`offset=0, truncated=True`, banner, joined lines. -/
def oversizeView (bytes : List Nat) : List Char :=
  let content := utf8DecodeIgnore (bytes.drop (bytes.length - MAX_LOG_SIZE))
  let lines := pySplitLines content
  let error_summary := generate_error_summary lines 0 true
  let full_content := List.intercalate (pstr "\n") lines
  error_summary ++ pstr "[LOG TRUNCATED - showing last " ++
    pstr (Nat.repr MAX_LOG_SIZE) ++ pstr " bytes]\n" ++ full_content

/-- The normal path of `safe_read_log` (lines 71-85), applied to the
result of the strict text-mode read: a decode error propagates to the
handler's `except` clause (line 88); otherwise `readlines`, strip the
trailing newline of each line, and either show everything or the last
`max_lines` lines behind a summary and truncation banner. -/
def normalView : Except (List Char) (List Char) → Nat → List Char
  | .error e, _ => pstr "Error reading log file: " ++ e
  | .ok raw, max_lines =>
    let lines := pyReadLines (translateNewlines raw)
    if max_lines < lines.length then
      let error_summary := generate_error_summary lines 0 false
      let truncated_lines :=
        List.intercalate (pstr "\n") (lines.drop (lines.length - max_lines))
      error_summary ++ pstr "[LOG TRUNCATED - showing last " ++
        pstr (Nat.repr max_lines) ++ pstr " lines]\n" ++ truncated_lines
    else
      generate_error_summary lines 0 false ++ List.intercalate (pstr "\n") lines

/-- `EnhancedLogHandler.safe_read_log(log_path, max_lines)`
(web_server.py lines 52-88).  Total: every failure is rendered as a
string, never raised. -/
def safe_read_log (fs : FileSys) (max_lines : Nat) : List Char :=
  match fs with
  | .missing => pstr "Log file not found"
  | .ioError msg => pstr "Error reading log file: " ++ msg
  | .present bytes =>
    if MAX_LOG_SIZE < bytes.length then oversizeView bytes
    else normalView (utf8DecodeStrict bytes) max_lines

/-! ### `EnhancedLogHandler.get_sync_status` -/

/-- One iteration of the status loop (web_server.py lines 154-163):
strip the line, test the four marker phrases in order. -/
def checkStatusLine (l : List Char) : Option (List Char × List Char) :=
  let line := pyStrip l
  if pyContains (pstr "All syncs completed successfully") line then
    some (pstr "🟢 Completed", pstr "#3fb950")
  else if pyContains (pstr "Some syncs failed. Check logs for details.") line then
    some (pstr "🟡 Completed with errors", pstr "#d29922")
  else if pyContains (pstr "Starting sync process.") line then
    some (pstr "🔵 Running", pstr "#79c0ff")
  else if pyContains (pstr "Logs cleared via web interface") line then
    some (pstr "⚪ No run yet", pstr "#7d8590")
  else none

/-- `for line in reversed(lines): ...` with default `Running`
(web_server.py lines 154-166); the argument is already reversed, i.e.
most recent line first. -/
def scanStatus : List (List Char) → List Char × List Char
  | [] => (pstr "🔵 Running", pstr "#79c0ff")
  | l :: ls =>
    match checkStatusLine l with
    | some r => r
    | none => scanStatus ls

/-- The four marker phrases tested by the status loop, in test order. -/
def statusMarkers : List (List Char) :=
  [pstr "All syncs completed successfully",
   pstr "Some syncs failed. Check logs for details.",
   pstr "Starting sync process.",
   pstr "Logs cleared via web interface"]

/-- The line window of `get_sync_status` (web_server.py lines 147-151):
last `min 1024 size` bytes, lenient decode, `content.strip()`, split on
`'\n'`, keep the last 5 pieces. -/
def statusWindow (bytes : List Nat) : List (List Char) :=
  let read_size := min 1024 bytes.length
  let content := utf8DecodeIgnore (bytes.drop (bytes.length - read_size))
  let pieces := splitOnChar '\n' (pyStrip content)
  (pieces.reverse.take 5).reverse

/-- `EnhancedLogHandler.get_sync_status()` (web_server.py lines 133-170)
over the observable state of `LOG_FILE`. -/
def get_sync_status (fs : FileSys) : List Char × List Char :=
  match fs with
  | .missing => (pstr "⚪ Unknown", pstr "#7d8590")
  | .ioError _ => (pstr "❌ Error", pstr "#f85149")
  | .present bytes =>
    if bytes.length = 0 then (pstr "⚪ No logs", pstr "#7d8590")
    else scanStatus (statusWindow bytes).reverse

/-- Spec-side definition, following the claim's words: "the last 5
non-empty lines obtained from at most the last 1024 bytes of the file"
(to be compared with `statusWindow`, which the code computes). -/
def claimedStatusWindow (bytes : List Nat) : List (List Char) :=
  let read_size := min 1024 bytes.length
  let content := utf8DecodeIgnore (bytes.drop (bytes.length - read_size))
  let nonEmpty := (splitOnChar '\n' content).filter (fun l => !l.isEmpty)
  (nonEmpty.reverse.take 5).reverse

/-! ### `EnhancedLogHandler.do_POST` -/

/-- Observable state of the two log files touched by `/clear`
(`LOG_FILE` and `SERVER_LOG_FILE`): `none` when the file does not exist. -/
structure LogsState where
  syncLog : Option (List Char)
  serverLog : Option (List Char)
deriving DecidableEq

/-- The response a POST handler sends: an `send_error(code, msg)` or a
JSON body behind `send_secure_response(code)`. -/
inductive PostResponse where
  | httpError (code : Nat) (msg : List Char)
  | jsonOk (code : Nat) (body : List Char)
deriving DecidableEq

/-- The marker line `/clear` writes into the sync log (line 453). -/
def clearMarker (ts : List Char) : List Char :=
  pstr "[" ++ ts ++ pstr "] [INFO] Logs cleared via web interface\n"

/-- The marker line `/clear` writes into the server log (line 457). -/
def serverClearMarker (ts : List Char) : List Char :=
  pstr "[" ++ ts ++ pstr "] [INFO] Server logs cleared via web interface\n"

/-- The endpoint dispatch of `do_POST` (web_server.py lines 448-504),
after the body checks.  `spawn` abstracts `subprocess.Popen`: `some pid`
on success, `none` when it raises.  `/clear` rewrites each log file to
its marker line only if the file exists; `/run` opens the sync log in
append mode (creating it when absent) before spawning. -/
def do_POSTDispatch (path : List Char) (spawn : Option Nat) (ts : List Char)
    (st : LogsState) : PostResponse × LogsState :=
  if path = pstr "/clear" then
    let st' : LogsState :=
      ⟨st.syncLog.map fun _ => clearMarker ts,
       st.serverLog.map fun _ => serverClearMarker ts⟩
    (.jsonOk 200 (pstr "\x7b\"status\": \"success\"\x7d"), st')
  else if path = pstr "/run" then
    let st' : LogsState := ⟨some (st.syncLog.getD []), st.serverLog⟩
    match spawn with
    | some pid =>
      (.jsonOk 200 (pstr "\x7b\"status\": \"started\", \"pid\": " ++
        pstr (Nat.repr pid) ++ pstr "\x7d"), st')
    | none =>
      (.jsonOk 500
        (pstr "\x7b\"status\": \"error\", \"message\": \"Failed to start sync process\"\x7d"),
       st')
  else (.httpError 404 (pstr "Endpoint not found"), st)

/-- `EnhancedLogHandler.do_POST` (web_server.py lines 413-504).
`content_length` is the declared `Content-Length` header (absent ⇒
`none`); `isJson` is whether `Content-Type` starts with
`application/json`; `bodyParses` abstracts whether `json.loads` on the
body succeeds (only consulted for a non-empty JSON body). -/
def do_POST (path : List Char) (content_length : Option Nat) (isJson : Bool)
    (bodyParses : Bool) (spawn : Option Nat) (ts : List Char) (st : LogsState) :
    PostResponse × LogsState :=
  match content_length with
  | some n =>
    if 1024 < n then (.httpError 413 (pstr "Request entity too large"), st)
    else if isJson && decide (0 < n) && !bodyParses then
      (.httpError 400 (pstr "Invalid request data"), st)
    else do_POSTDispatch path spawn ts st
  | none => do_POSTDispatch path spawn ts st

/-! ### Spec-side definitions and concrete inputs used by the claims -/

/-- Spec-side companion of the scanning loop: *all* `Line <n>: <line>`
entries for keyword-matching lines, in file order, numbering from `i`,
with no search cap.  `collectErrors lines i []` is proved to be its
`take 30`. -/
def matchEntries : List (List Char) → Nat → List (List Char)
  | [], _ => []
  | l :: ls, i =>
    if isErrorLine l then errorEntry i l :: matchEntries ls (i + 1)
    else matchEntries ls (i + 1)

/-- The first line of the error-summary header for a reported count `n`
(normal path, `truncated = false`), used to state what count the summary
header reports. -/
def specHeaderLine (n : Nat) : List Char :=
  pstr "🔴 ERROR SUMMARY: " ++ pstr (Nat.repr n) ++
    (if n = 1 then pstr " error found\n" else pstr " errors found\n")

/-- A 2107-character line carrying the `Error:` keyword, used to push
the assembled summary past the 2000-character cap. -/
def longErrorLine : List Char := pstr "Error: " ++ List.replicate 2100 'x'

/-! ## Helper lemmas -/

theorem pyContains_iff (m : List Char) : ∀ l : List Char,
    pyContains m l = true ↔ ∃ a b, l = a ++ (m ++ b) := by
  intro l
  induction l with
  | nil =>
    simp only [pyContains, List.isEmpty_iff]
    constructor
    · rintro rfl; exact ⟨[], [], rfl⟩
    · rintro ⟨a, b, h⟩
      rcases List.append_eq_nil.mp h.symm with ⟨rfl, h2⟩
      exact (List.append_eq_nil.mp h2).1
  | cons c rest ih =>
    simp only [pyContains, Bool.or_eq_true]
    constructor
    · rintro (hp | hc)
      · obtain ⟨t, ht⟩ := List.isPrefixOf_iff_prefix.mp hp
        exact ⟨[], t, by rw [List.nil_append, ht]⟩
      · obtain ⟨a, b, h⟩ := ih.mp hc
        exact ⟨c :: a, b, by rw [h]; rfl⟩
    · rintro ⟨a, b, h⟩
      cases a with
      | nil =>
        rw [List.nil_append] at h
        exact Or.inl (List.isPrefixOf_iff_prefix.mpr ⟨b, h.symm⟩)
      | cons x a' =>
        rw [List.cons_append] at h
        injection h with _ h2
        exact Or.inr (ih.mpr ⟨a', b, h2⟩)

theorem pyContains_intro (m a b : List Char) : pyContains m (a ++ (m ++ b)) = true :=
  (pyContains_iff m _).mpr ⟨a, b, rfl⟩

theorem collectErrors_eq_take (lines : List (List Char)) :
    ∀ (i : Nat) (acc : List (List Char)), acc.length ≤ 30 →
      collectErrors lines i acc =
        acc.reverse ++ (matchEntries lines i).take (30 - acc.length) := by
  induction lines with
  | nil => intro i acc _; simp [collectErrors, matchEntries]
  | cons l ls ih =>
    intro i acc hacc
    simp only [collectErrors]
    by_cases h30 : max_errors_to_show * 2 ≤ acc.length
    · have hz : 30 - acc.length = 0 := by
        simp only [max_errors_to_show] at h30; omega
      rw [if_pos h30, hz]
      simp
    · have hlt : acc.length < 30 := by
        simp only [max_errors_to_show] at h30; omega
      rw [if_neg h30]
      by_cases hl : isErrorLine l
      · rw [if_pos hl, ih (i + 1) (errorEntry i l :: acc) (by simp; omega)]
        simp only [matchEntries, hl, if_pos, List.reverse_cons,
          show 30 - acc.length = 30 - (acc.length + 1) + 1 from by omega,
          List.take_succ_cons, List.length_cons, List.append_assoc,
          List.singleton_append]
      · rw [if_neg hl, ih (i + 1) acc hacc]
        simp [matchEntries, hl]

theorem collectErrors_eq (lines : List (List Char)) (i : Nat) :
    collectErrors lines i [] = (matchEntries lines i).take 30 := by
  simpa using collectErrors_eq_take lines i [] (by simp)

theorem length_matchEntries (lines : List (List Char)) : ∀ i : Nat,
    (matchEntries lines i).length = (lines.filter isErrorLine).length := by
  induction lines with
  | nil => intro i; simp [matchEntries]
  | cons l ls ih =>
    intro i
    by_cases hl : isErrorLine l <;>
      simp [matchEntries, hl, List.filter_cons, ih]

theorem headerCore_eq_specHeaderLine (n : Nat) :
    headerCore n false = specHeaderLine n ++ (sep50 ++ pstr "\n") := by
  by_cases h : n = 1
  · subst h; decide
  · simp only [headerCore, specHeaderLine, if_pos h, if_neg h,
      Bool.false_eq_true, if_false, List.append_nil, List.append_assoc]
    have hB : pstr " error" ++ (pstr "s" ++ (pstr " found" ++ (pstr "\n" ++
        (sep50 ++ pstr "\n")))) = pstr " errors found\n" ++ (sep50 ++ pstr "\n") := by
      decide
    rw [← hB]

theorem specHeaderLine_length_le (n : Nat) (h : n ≤ 30) :
    (specHeaderLine n).length ≤ 40 := by
  interval_cases n <;> decide

/-- With at least one match, the summary (normal form, `truncated =
false`) starts with the header line reporting `min 30 total` errors —
the 1900-character hard cap cannot eat the header, which is at most 40
characters long. -/
theorem gen_summary_starts_with_header (lines : List (List Char)) (offset : Nat)
    (hpos : 1 ≤ (lines.filter isErrorLine).length) :
    ∃ rest, generate_error_summary lines offset false =
      specHeaderLine (min 30 (lines.filter isErrorLine).length) ++ rest := by
  have hE := collectErrors_eq lines (1 + offset)
  have hlenM := length_matchEntries lines (1 + offset)
  have hlenE : (collectErrors lines (1 + offset) []).length =
      min 30 (lines.filter isErrorLine).length := by
    rw [hE, List.length_take, hlenM]
  have hEne : (collectErrors lines (1 + offset) []).isEmpty = false := by
    rcases h : collectErrors lines (1 + offset) [] with _ | ⟨a, l⟩
    · rw [h] at hlenE; simp at hlenE; omega
    · rfl
  simp only [generate_error_summary, hEne, Bool.false_eq_true, if_false]
  obtain ⟨R, hR⟩ : ∃ R, assembledSummary lines offset false =
      headerCore (min 30 (lines.filter isErrorLine).length) false ++ R := by
    simp only [assembledSummary, hlenE, List.append_assoc]
    exact ⟨_, rfl⟩
  obtain ⟨T, hT⟩ : ∃ T, assembledSummary lines offset false =
      specHeaderLine (min 30 (lines.filter isErrorLine).length) ++ T :=
    ⟨(sep50 ++ pstr "\n") ++ R, by
      rw [hR, headerCore_eq_specHeaderLine, List.append_assoc]⟩
  have hspec : (specHeaderLine (min 30 (lines.filter isErrorLine).length)).length ≤
      max_summary_chars - 100 := by
    have h40 := specHeaderLine_length_le (min 30 (lines.filter isErrorLine).length)
      (by omega)
    simp only [max_summary_chars]
    omega
  by_cases hc : max_summary_chars < (assembledSummary lines offset false).length
  · rw [if_pos hc, hT, List.take_append_eq_append_take,
      List.take_of_length_le hspec, List.append_assoc]
    exact ⟨_, rfl⟩
  · rw [if_neg hc, hT]
    exact ⟨T, rfl⟩

theorem dropWhile_append_chunk (p : Char → Bool) (a m b : List Char) (c : Char)
    (m' : List Char) (hm : m = c :: m') (hc : p c = false) :
    ∃ a2, List.dropWhile p (a ++ (m ++ b)) = a2 ++ (m ++ b) := by
  have hmb : List.dropWhile p (m ++ b) = m ++ b := by
    rw [hm, List.cons_append, List.dropWhile_cons, hc]
    simp
  rw [List.dropWhile_append]
  by_cases h : (List.dropWhile p a).isEmpty
  · rw [if_pos h, hmb]; exact ⟨[], rfl⟩
  · rw [if_neg h]; exact ⟨List.dropWhile p a, rfl⟩

/-- A chunk with non-whitespace first and last characters survives
`str.strip()`: it still occurs, with possibly shortened surroundings. -/
theorem pyStrip_chunk (m : List Char) (c₁ c₂ : Char) (m₁ m₂ : List Char)
    (hm1 : m = c₁ :: m₁) (hm2 : m.reverse = c₂ :: m₂)
    (h1 : isPySpace c₁ = false) (h2 : isPySpace c₂ = false) (a b : List Char) :
    ∃ a2 b2, pyStrip (a ++ (m ++ b)) = a2 ++ (m ++ b2) := by
  obtain ⟨a', ha'⟩ := dropWhile_append_chunk isPySpace a m b c₁ m₁ hm1 h1
  have hrev : (List.dropWhile isPySpace (a ++ (m ++ b))).reverse =
      b.reverse ++ (m.reverse ++ a'.reverse) := by
    rw [ha']; simp [List.reverse_append, List.append_assoc]
  obtain ⟨b', hb'⟩ :=
    dropWhile_append_chunk isPySpace b.reverse m.reverse a'.reverse c₂ m₂ hm2 h2
  refine ⟨a', b'.reverse, ?_⟩
  rw [pyStrip, hrev, hb']
  simp [List.reverse_append, List.append_assoc]

/-- A substring of `str.strip(l)` is a substring of `l`. -/
theorem pyContains_pyStrip_mono (m l : List Char)
    (h : pyContains m (pyStrip l) = true) : pyContains m l = true := by
  obtain ⟨a, b, hab⟩ := (pyContains_iff m _).mp h
  obtain ⟨u, hu⟩ : ∃ u, u ++ List.dropWhile isPySpace l = l :=
    ⟨List.takeWhile isPySpace l, List.takeWhile_append_dropWhile isPySpace l⟩
  have h2 : (List.dropWhile isPySpace l).reverse.takeWhile isPySpace ++
      (List.dropWhile isPySpace l).reverse.dropWhile isPySpace =
      (List.dropWhile isPySpace l).reverse :=
    List.takeWhile_append_dropWhile isPySpace (List.dropWhile isPySpace l).reverse
  have h3 : List.dropWhile isPySpace l =
      pyStrip l ++ ((List.dropWhile isPySpace l).reverse.takeWhile isPySpace).reverse := by
    have h4 := congrArg List.reverse h2
    rw [List.reverse_append, List.reverse_reverse] at h4
    rw [pyStrip]
    exact h4.symm
  refine (pyContains_iff m l).mpr ⟨u ++ a, b ++
    ((List.dropWhile isPySpace l).reverse.takeWhile isPySpace).reverse, ?_⟩
  conv_lhs => rw [← hu, h3, hab]
  simp [List.append_assoc]

theorem not_pyContains_pyStrip (m l : List Char) (h : pyContains m l = false) :
    pyContains m (pyStrip l) = false := by
  cases hb : pyContains m (pyStrip l)
  · rfl
  · have := pyContains_pyStrip_mono m l hb
    simp [h] at this

/-- A line containing none of the four marker phrases is skipped by the
status loop. -/
theorem checkStatusLine_eq_none (l : List Char)
    (h : ∀ kw ∈ statusMarkers, pyContains kw l = false) :
    checkStatusLine l = none := by
  have g1 := not_pyContains_pyStrip _ l
    (h (pstr "All syncs completed successfully") (by simp [statusMarkers]))
  have g2 := not_pyContains_pyStrip _ l
    (h (pstr "Some syncs failed. Check logs for details.") (by simp [statusMarkers]))
  have g3 := not_pyContains_pyStrip _ l
    (h (pstr "Starting sync process.") (by simp [statusMarkers]))
  have g4 := not_pyContains_pyStrip _ l
    (h (pstr "Logs cleared via web interface") (by simp [statusMarkers]))
  simp only [checkStatusLine, g1, g2, g3, g4, Bool.false_eq_true, if_false]

theorem scanStatus_of_no_marker : ∀ lines : List (List Char),
    (∀ l ∈ lines, checkStatusLine l = none) →
    scanStatus lines = (pstr "🔵 Running", pstr "#79c0ff") := by
  intro lines
  induction lines with
  | nil => intro _; rfl
  | cons l ls ih =>
    intro h
    simp only [scanStatus, h l (by simp)]
    exact ih fun x hx => h x (by simp [hx])

theorem utf8DecodeIgnoreGo_ascii : ∀ (fuel : Nat) (bs : List Nat),
    bs.length ≤ fuel → (∀ x ∈ bs, x < 128) →
    utf8DecodeIgnoreGo bs fuel = bs.map Char.ofNat := by
  intro fuel
  induction fuel with
  | zero =>
    intro bs hlen _
    have : bs = [] := List.length_eq_zero.mp (Nat.le_zero.mp hlen)
    subst this; rfl
  | succ f ih =>
    intro bs hlen hascii
    cases bs with
    | nil => rfl
    | cons b rest =>
      have hb : b < 128 := hascii b (by simp)
      have hone : utf8DecodeOne (b :: rest) = some (b, 1) := by
        simp [utf8DecodeOne, hb]
      simp only [utf8DecodeIgnoreGo, hone, List.drop_succ_cons, List.drop_zero,
        List.map_cons]
      rw [ih rest (by simpa using hlen) (fun x hx => hascii x (by simp [hx]))]

/-- `errors='ignore'` decoding of pure-ASCII bytes is byte-to-character. -/
theorem utf8DecodeIgnore_ascii (bs : List Nat) (h : ∀ x ∈ bs, x < 128) :
    utf8DecodeIgnore bs = bs.map Char.ofNat :=
  utf8DecodeIgnoreGo_ascii bs.length bs le_rfl h

theorem dropWhile_isPySpace_replicate (k : Nat) :
    List.dropWhile isPySpace (List.replicate k '\n') = [] := by
  induction k with
  | zero => rfl
  | succ n ih =>
    rw [List.replicate_succ, List.dropWhile_cons]
    simp [ih, show isPySpace '\n' = true from by decide]

/-- Trailing newlines are invisible to `str.strip()`. -/
theorem pyStrip_append_newlines (c : List Char) (k : Nat) :
    pyStrip (c ++ List.replicate k '\n') = pyStrip c := by
  rw [pyStrip, pyStrip, List.dropWhile_append]
  by_cases h : (List.dropWhile isPySpace c).isEmpty
  · rw [if_pos h, dropWhile_isPySpace_replicate]
    have hc : List.dropWhile isPySpace c = [] := List.isEmpty_iff.mp h
    rw [hc]
  · rw [if_neg h, List.reverse_append, List.reverse_replicate,
      List.dropWhile_append, if_pos (by rw [dropWhile_isPySpace_replicate]; rfl)]

/-! ## Claims -/

/-- Claim C1, counterexample: a 310-byte file of 31 `[ERROR] x` lines
read with `maxLines = 5`.  The claim predicts a reported count of 31
(the number of matching lines in the entire file), but the scan stops
after 30 matches: the header says 30 and the digit string `31` occurs
nowhere in the output. -/
theorem C1_counterexample :
    (List.replicate 31 (asciiBytes "[ERROR] x\n")).flatten.length ≤ MAX_LOG_SIZE ∧
    (utf8DecodeStrict (List.replicate 31 (asciiBytes "[ERROR] x\n")).flatten).toOption =
      some (List.replicate 31 (pstr "[ERROR] x\n")).flatten ∧
    (pyReadLines (translateNewlines
      (List.replicate 31 (pstr "[ERROR] x\n")).flatten)).length = 31 ∧
    ((pyReadLines (translateNewlines
      (List.replicate 31 (pstr "[ERROR] x\n")).flatten)).filter isErrorLine).length = 31 ∧
    pyContains (pstr "ERROR SUMMARY: 30 errors found")
      (safe_read_log (.present (List.replicate 31 (asciiBytes "[ERROR] x\n")).flatten) 5)
      = true ∧
    pyContains (pstr "31")
      (safe_read_log (.present (List.replicate 31 (asciiBytes "[ERROR] x\n")).flatten) 5)
      = false := by
  refine ⟨by decide, by decide, by decide, by decide, by decide, by decide⟩

/-- Claim C1, amended: for every log file at most the byte ceiling whose
(strictly decoded) line count exceeds `maxLines`, and with at least one
matching line, the summary header of `read(path, maxLines)` reports
`min(total, 30)` errors, where `total` is the number of
error-keyword-matching lines in the entire file: the scan stops after 30
matches, so only up to 30 matches the reported count equals the true
total. -/
theorem C1_summary_count_capped (bytes : List Nat) (max_lines : Nat) (raw : List Char)
    (hsize : bytes.length ≤ MAX_LOG_SIZE)
    (hdec : utf8DecodeStrict bytes = .ok raw)
    (hlines : max_lines < (pyReadLines (translateNewlines raw)).length)
    (hpos : 1 ≤ ((pyReadLines (translateNewlines raw)).filter isErrorLine).length) :
    ∃ rest, safe_read_log (.present bytes) max_lines =
      specHeaderLine
        (min 30 ((pyReadLines (translateNewlines raw)).filter isErrorLine).length) ++
        rest := by
  have h0 : safe_read_log (.present bytes) max_lines =
      normalView (utf8DecodeStrict bytes) max_lines := by
    show (if MAX_LOG_SIZE < bytes.length then oversizeView bytes
      else normalView (utf8DecodeStrict bytes) max_lines) = _
    rw [if_neg (Nat.not_lt.mpr hsize)]
  rw [h0, hdec]
  simp only [normalView]
  rw [if_pos hlines]
  obtain ⟨rest, hrest⟩ :=
    gen_summary_starts_with_header (pyReadLines (translateNewlines raw)) 0 hpos
  rw [hrest]
  simp only [List.append_assoc]
  exact ⟨_, rfl⟩

/-- Witness for `C1_summary_count_capped`: a three-line file with two
matching lines, read with `maxLines = 2`. -/
theorem C1_witness :
    ∃ rest, safe_read_log (.present (asciiBytes "[ERROR] a\nok\nFailed b\n")) 2 =
      specHeaderLine
        (min 30 ((pyReadLines (translateNewlines
          (pstr "[ERROR] a\nok\nFailed b\n"))).filter isErrorLine).length) ++ rest :=
  C1_summary_count_capped (asciiBytes "[ERROR] a\nok\nFailed b\n") 2
    (pstr "[ERROR] a\nok\nFailed b\n") (by decide) (by rfl) (by decide) (by decide)

/-- Claim C2, counterexample: the file consisting of the single byte
`0xFF` is below the byte ceiling and contains an invalid UTF-8 byte
sequence, yet `read` returns the `Error reading log file:` string (the
normal path decodes strictly), not a log view. -/
theorem C2_counterexample :
    ([255] : List Nat).length ≤ MAX_LOG_SIZE ∧
    (utf8DecodeStrict [255]).isOk = false ∧
    safe_read_log (.present [255]) 10000 =
      pstr "Error reading log file: " ++
        ([apos] ++ pstr "utf-8" ++ [apos] ++ pstr " codec can" ++ [apos] ++
          pstr "t decode byte 0xff in position 0: invalid start byte") := by
  refine ⟨by decide, by decide, ?_⟩
  decide

/-- Claim C2, amended: in the normal path (size at most the byte ceiling)
the file is decoded as *strict* UTF-8 — lenient decoding applies only to
the oversize path — so a file with invalid UTF-8 bytes makes `read`
return the `Error reading log file:` string built from the decode
error's description (caught, never raised). -/
theorem C2_normal_path_strict_decode (bytes : List Nat) (n : Nat) (e : List Char)
    (hsize : bytes.length ≤ MAX_LOG_SIZE)
    (hdec : utf8DecodeStrict bytes = .error e) :
    safe_read_log (.present bytes) n = pstr "Error reading log file: " ++ e := by
  show (if MAX_LOG_SIZE < bytes.length then oversizeView bytes
    else normalView (utf8DecodeStrict bytes) n) = _
  rw [if_neg (Nat.not_lt.mpr hsize), hdec]
  rfl

/-- Witness for `C2_normal_path_strict_decode` at the one-byte file
`0xFF`. -/
theorem C2_witness :
    safe_read_log (.present [255]) 500 =
      pstr "Error reading log file: " ++
        ([apos] ++ pstr "utf-8" ++ [apos] ++ pstr " codec can" ++ [apos] ++
          pstr "t decode byte 0xff in position 0: invalid start byte") :=
  C2_normal_path_strict_decode [255] 500 _ (by decide) rfl

/-- Claim C3 (confirmed): the generated summary never exceeds
`max_summary_chars` (2000) characters, and whenever the assembled
summary (header, entries, trailing separator) exceeds 2000 characters
the result is the assembled text hard-truncated to 1900 characters with
the fixed `[ERROR SUMMARY TRUNCATED - too many errors]` notice plus
separator appended. -/
theorem C3_summary_length_bound (lines : List (List Char)) (offset : Nat)
    (truncated : Bool) :
    (generate_error_summary lines offset truncated).length ≤ max_summary_chars ∧
    (max_summary_chars < (assembledSummary lines offset truncated).length →
      generate_error_summary lines offset truncated =
        (assembledSummary lines offset truncated).take (max_summary_chars - 100) ++
          summaryTruncMessage) := by
  simp only [generate_error_summary]
  by_cases hE : (collectErrors lines (1 + offset) []).isEmpty
  · rw [if_pos hE]
    have hnil : collectErrors lines (1 + offset) [] = [] := List.isEmpty_iff.mp hE
    refine ⟨by decide, fun hcap => absurd hcap ?_⟩
    have : (assembledSummary lines offset truncated).length ≤ max_summary_chars := by
      cases truncated <;> simp [assembledSummary, hnil] <;> decide
    omega
  · rw [if_neg hE]
    by_cases hc : max_summary_chars <
        (assembledSummary lines offset truncated).length
    · rw [if_pos hc]
      refine ⟨?_, fun _ => rfl⟩
      have hmsg : summaryTruncMessage.length = 97 := by decide
      simp only [List.length_append, List.length_take, hmsg, max_summary_chars]
      omega
    · rw [if_neg hc]
      exact ⟨Nat.le_of_not_lt hc, fun h => absurd h hc⟩

theorem isErrorLine_longErrorLine : isErrorLine longErrorLine = true := by
  apply List.any_eq_true.mpr
  refine ⟨pstr "Error:", by decide, ?_⟩
  have hupper : pyUpper longErrorLine = pstr "ERROR: " ++ List.replicate 2100 'X' := by
    have h1 : List.map pyUpperChar (pstr "Error: ") = pstr "ERROR: " := by decide
    have h2 : pyUpperChar 'x' = 'X' := by decide
    simp [pyUpper, longErrorLine, List.map_append, List.map_replicate, h1, h2]
  have hup2 : pyUpper (pstr "Error:") = pstr "ERROR:" := by decide
  rw [hupper, hup2]
  have hsplit : pstr "ERROR: " = pstr "ERROR:" ++ pstr " " := by decide
  rw [hsplit, List.append_assoc, ← List.nil_append
    (pstr "ERROR:" ++ (pstr " " ++ List.replicate 2100 'X'))]
  exact pyContains_intro _ _ _

theorem collectErrors_longErrorLine :
    collectErrors [longErrorLine] 1 [] = [errorEntry 1 longErrorLine] := by
  simp [collectErrors, isErrorLine_longErrorLine, max_errors_to_show]

/-- Witness for `C3_summary_length_bound`: a single 2107-character error
line pushes the assembled summary past 2000 characters, so the hard cap
fires and the bound still holds. -/
theorem C3_witness :
    (max_summary_chars < (assembledSummary [longErrorLine] 0 false).length) ∧
    (generate_error_summary [longErrorLine] 0 false).length ≤ max_summary_chars ∧
    generate_error_summary [longErrorLine] 0 false =
      (assembledSummary [longErrorLine] 0 false).take (max_summary_chars - 100) ++
        summaryTruncMessage := by
  have hcap : max_summary_chars < (assembledSummary [longErrorLine] 0 false).length := by
    have hent : (errorEntry 1 longErrorLine).length = 2115 := by
      simp only [errorEntry, longErrorLine, List.length_append, List.length_replicate]
      decide
    have h1 : assembledSummary [longErrorLine] 0 false =
        headerCore 1 false ++ (errorEntry 1 longErrorLine ++ pstr "\n" ++ sep50 ++
          pstr "\n\n") := by
      simp [assembledSummary, collectErrors_longErrorLine, max_errors_to_show,
        List.intercalate, List.intersperse]
    rw [h1]
    simp only [List.length_append, hent, max_summary_chars]
    omega
  have h := C3_summary_length_bound [longErrorLine] 0 false
  exact ⟨hcap, h.1, h.2 hcap⟩

/-- Claim C5 (confirmed): the status loop scans its window
most-recent-first and returns on the first marker match, so (a) whenever
the last line of the window contains `All syncs completed successfully`
the result is Completed with the success color, whatever earlier lines
(e.g. `Starting sync process.`) are in the window; and (b) when no
scanned line contains any of the four markers the result is Running with
the info color. -/
theorem C5_status_most_recent_first :
    (∀ (earlier : List (List Char)) (a b : List Char),
      scanStatus ((earlier ++
          [a ++ (pstr "All syncs completed successfully" ++ b)]).reverse) =
        (pstr "🟢 Completed", pstr "#3fb950")) ∧
    (∀ lines : List (List Char),
      (∀ l ∈ lines, ∀ kw ∈ statusMarkers, pyContains kw l = false) →
      scanStatus lines.reverse = (pstr "🔵 Running", pstr "#79c0ff")) := by
  constructor
  · intro earlier a b
    rw [List.reverse_append]
    have hcheck :
        checkStatusLine (a ++ (pstr "All syncs completed successfully" ++ b)) =
          some (pstr "🟢 Completed", pstr "#3fb950") := by
      obtain ⟨a2, b2, heq⟩ := pyStrip_chunk (pstr "All syncs completed successfully")
        'A' 'y' (pstr "All syncs completed successfully").tail
        (pstr "All syncs completed successfully").reverse.tail
        (by decide) (by decide) (by decide) (by decide) a b
      simp only [checkStatusLine, heq, pyContains_intro, if_pos]
    simp only [List.reverse_cons, List.reverse_nil, List.nil_append,
      List.singleton_append, scanStatus, hcheck]
  · intro lines h
    exact scanStatus_of_no_marker lines.reverse
      fun l hl => checkStatusLine_eq_none l (h l (List.mem_reverse.mp hl))

/-- Witness for `C5_status_most_recent_first`: a window with a
`Starting` line and a final completion line classifies as Completed; a
marker-free window classifies as Running. -/
theorem C5_witness :
    scanStatus (([pstr "Starting sync process."] ++
        [pstr "12:00 " ++ (pstr "All syncs completed successfully" ++ pstr "!")]).reverse) =
      (pstr "🟢 Completed", pstr "#3fb950") ∧
    scanStatus ([pstr "rsync transferred 3 files"].reverse) =
      (pstr "🔵 Running", pstr "#79c0ff") :=
  ⟨C5_status_most_recent_first.1 [pstr "Starting sync process."]
      (pstr "12:00 ") (pstr "!"),
   C5_status_most_recent_first.2 [pstr "rsync transferred 3 files"] (by decide)⟩

/-- Claim C6, counterexample: the non-empty file `a\nb\n\nc\n`.  The
claim predicts the window `["a","b","c"]` (last 5 non-empty lines), but
the code window is `["a","b","","c"]`: the interior empty line occupies
a slot (only leading/trailing whitespace is stripped). -/
theorem C6_counterexample :
    statusWindow (asciiBytes "a\nb\n\nc\n") ≠
      claimedStatusWindow (asciiBytes "a\nb\n\nc\n") ∧
    [] ∈ statusWindow (asciiBytes "a\nb\n\nc\n") ∧
    statusWindow (asciiBytes "a\nb\n\nc\n") =
      [pstr "a", pstr "b", [], pstr "c"] := by
  refine ⟨by decide, by decide, by decide⟩

/-- Claim C6, amended: the scanned window is the last 5 lines (empty or
not) of the whitespace-stripped lenient decode of at most the last 1024
bytes, split on newline.  Trailing empty lines at the end of the file
never occupy slots — for an ASCII file fitting the 1024-byte window,
appending trailing newlines leaves the window unchanged — but empty
lines *between* non-empty lines can occupy slots; in particular, when
the decoded tail has no surrounding whitespace and no empty piece, the
window equals the last 5 non-empty lines. -/
theorem C6_window_strip_behavior :
    (∀ (bytes : List Nat) (k : Nat), (∀ x ∈ bytes, x < 128) →
      bytes.length + k ≤ 1024 →
      statusWindow (bytes ++ List.replicate k 10) = statusWindow bytes) ∧
    (∀ bytes : List Nat, bytes.length ≤ 1024 →
      pyStrip (utf8DecodeIgnore bytes) = utf8DecodeIgnore bytes →
      (∀ p ∈ splitOnChar '\n' (utf8DecodeIgnore bytes), p ≠ []) →
      statusWindow bytes = claimedStatusWindow bytes) := by
  constructor
  · intro bytes k hascii hsize
    have hall : ∀ x ∈ bytes ++ List.replicate k 10, x < 128 := by
      intro x hx
      rcases List.mem_append.mp hx with h | h
      · exact hascii x h
      · rw [List.eq_of_mem_replicate h]; omega
    simp only [statusWindow, List.length_append, List.length_replicate]
    rw [Nat.min_eq_right (by omega), Nat.min_eq_right (by omega),
      Nat.sub_self, Nat.sub_self, List.drop_zero, List.drop_zero,
      utf8DecodeIgnore_ascii _ hall, utf8DecodeIgnore_ascii _ hascii,
      List.map_append, List.map_replicate,
      show Char.ofNat 10 = '\n' from rfl, pyStrip_append_newlines]
  · intro bytes hsize hstrip hne
    simp only [statusWindow, claimedStatusWindow]
    rw [Nat.min_eq_right hsize, Nat.sub_self, List.drop_zero, hstrip]
    have hfil : (splitOnChar '\n' (utf8DecodeIgnore bytes)).filter
        (fun l => !l.isEmpty) = splitOnChar '\n' (utf8DecodeIgnore bytes) := by
      refine List.filter_eq_self.mpr fun p hp => ?_
      cases p with
      | nil => exact absurd rfl (hne [] hp)
      | cons a l => rfl
    rw [hfil]

/-- Witness for `C6_window_strip_behavior`: appending two blank lines to
`a\nb` leaves the window unchanged, and on `x\ny` the code window equals
the claimed last-5-non-empty-lines window. -/
theorem C6_witness :
    statusWindow (asciiBytes "a\nb" ++ List.replicate 2 10) =
      statusWindow (asciiBytes "a\nb") ∧
    statusWindow (asciiBytes "x\ny") = claimedStatusWindow (asciiBytes "x\ny") :=
  ⟨C6_window_strip_behavior.1 (asciiBytes "a\nb") 2 (by decide) (by decide),
   C6_window_strip_behavior.2 (asciiBytes "x\ny") (by decide) (by decide) (by decide)⟩

/-- Claim C7, counterexample: 31 matching lines.  The claim predicts a
`... and 16 more errors` suffix (total − 15), but the scan stops after
30 matches, so the summary says `... and 15 more errors`. -/
theorem C7_counterexample :
    ((List.replicate 31 (pstr "[ERROR] x")).filter isErrorLine).length = 31 ∧
    pyContains (pstr "... and 15 more errors")
      (generate_error_summary (List.replicate 31 (pstr "[ERROR] x")) 0 false) = true ∧
    pyContains (pstr "... and 16 more errors")
      (generate_error_summary (List.replicate 31 (pstr "[ERROR] x")) 0 false) = false := by
  refine ⟨by decide, by decide, by decide⟩

/-- Claim C7, amended: with more than 15 matching lines (and the
assembled summary inside the 2000-character cap), the summary lists
exactly the first 15 entries in file order as `Line <n>: <line>`,
followed by `... and N more errors` where `N = min(total, 30) − 15`:
the scan stops after 30 matches, so beyond 30 the suffix reports
`min(total, 30) − 15`, not `total − 15`. -/
theorem C7_more_errors_suffix (lines : List (List Char)) (offset : Nat)
    (truncated : Bool)
    (hmany : 15 < (lines.filter isErrorLine).length)
    (hcap : (assembledSummary lines offset truncated).length ≤ max_summary_chars) :
    generate_error_summary lines offset truncated =
      headerCore (min 30 (lines.filter isErrorLine).length) truncated ++
        (List.intercalate (pstr "\n") ((matchEntries lines (1 + offset)).take 15) ++
          (pstr "\n... and " ++
            pstr (Nat.repr (min 30 (lines.filter isErrorLine).length - 15)) ++
            pstr " more errors (see full log below)")) ++
        pstr "\n" ++ sep50 ++ pstr "\n\n" := by
  have hE := collectErrors_eq lines (1 + offset)
  have hlenM := length_matchEntries lines (1 + offset)
  have hlenE : (collectErrors lines (1 + offset) []).length =
      min 30 (lines.filter isErrorLine).length := by
    rw [hE, List.length_take, hlenM]
  have hEne : (collectErrors lines (1 + offset) []).isEmpty = false := by
    rcases h : collectErrors lines (1 + offset) [] with _ | ⟨a, l⟩
    · rw [h] at hlenE; simp at hlenE; omega
    · rfl
  simp only [generate_error_summary, hEne, Bool.false_eq_true, if_false]
  rw [if_neg (Nat.not_lt.mpr hcap)]
  simp only [assembledSummary, hlenE, max_errors_to_show]
  rw [if_pos (show 15 < min 30 (lines.filter isErrorLine).length by omega)]
  rw [hE, List.take_take, show (15 : Nat) ⊓ 30 = 15 from rfl]

/-- Witness for `C7_more_errors_suffix`: sixteen matching lines. -/
theorem C7_witness :
    generate_error_summary (List.replicate 16 (pstr "[ERROR] y")) 0 false =
      headerCore
          (min 30 ((List.replicate 16 (pstr "[ERROR] y")).filter isErrorLine).length)
          false ++
        (List.intercalate (pstr "\n")
            ((matchEntries (List.replicate 16 (pstr "[ERROR] y")) (1 + 0)).take 15) ++
          (pstr "\n... and " ++
            pstr (Nat.repr
              (min 30 ((List.replicate 16 (pstr "[ERROR] y")).filter isErrorLine).length
                - 15)) ++
            pstr " more errors (see full log below)")) ++
        pstr "\n" ++ sep50 ++ pstr "\n\n" :=
  C7_more_errors_suffix (List.replicate 16 (pstr "[ERROR] y")) 0 false
    (by decide) (by decide)

/-- Claim C4 (confirmed): `safe_read_log` is a total function (it never
raises); a missing file yields the literal `Log file not found`, and any
I/O failure with description `msg` yields `Error reading log file: `
followed by that description. -/
theorem C4_reader_error_strings (n : Nat) (msg : List Char) :
    safe_read_log .missing n = pstr "Log file not found" ∧
    safe_read_log (.ioError msg) n = pstr "Error reading log file: " ++ msg :=
  ⟨rfl, rfl⟩

/-- Claim C8 (confirmed): a POST to `/clear` whose declared
`Content-Length` exceeds 1024 is answered with a 413 size-limit error,
and the log-file state is returned unchanged. -/
theorem C8_oversized_body_rejected (n : Nat) (isJson bodyParses : Bool)
    (spawn : Option Nat) (ts : List Char) (st : LogsState) (h : 1024 < n) :
    do_POST (pstr "/clear") (some n) isJson bodyParses spawn ts st =
      (.httpError 413 (pstr "Request entity too large"), st) := by
  show (if 1024 < n then ((PostResponse.httpError 413 (pstr "Request entity too large"), st) : PostResponse × LogsState)
    else if (isJson && decide (0 < n) && !bodyParses) = true then
      (PostResponse.httpError 400 (pstr "Invalid request data"), st)
    else do_POSTDispatch (pstr "/clear") spawn ts st) = _
  rw [if_pos h]

/-- Witness for `C8_oversized_body_rejected` with a 2000-byte body and
both log files present. -/
theorem C8_witness :
    do_POST (pstr "/clear") (some 2000) true true none (pstr "2024-01-01 00:00:00")
        ⟨some (pstr "old sync"), some (pstr "old server")⟩ =
      (.httpError 413 (pstr "Request entity too large"),
       ⟨some (pstr "old sync"), some (pstr "old server")⟩) :=
  C8_oversized_body_rejected 2000 true true none _ _ (by decide)

/-- Claim C9 (confirmed): the reader output is a function of the
observable file state alone — two reads of an unmodified file (equal
observable states) return identical strings.  The embedding of
`safe_read_log` is a pure total function, so this is determinism of the
code in its file-contents input. -/
theorem C9_reader_deterministic (fs₁ fs₂ : FileSys) (n : Nat) (h : fs₁ = fs₂) :
    safe_read_log fs₁ n = safe_read_log fs₂ n := by rw [h]

/-- Witness for `C9_reader_deterministic` on a concrete two-line file. -/
theorem C9_witness :
    safe_read_log (.present (asciiBytes "a\nb\n")) 7 =
      safe_read_log (.present (asciiBytes "a\nb\n")) 7 :=
  C9_reader_deterministic _ _ 7 rfl

/-- Claim C10 (confirmed): a POST to `/clear` when neither log file
exists creates nothing (both files stay absent) and still answers 200
with the JSON success envelope. -/
theorem C10_clear_no_logs_noop (isJson bodyParses : Bool) (spawn : Option Nat)
    (ts : List Char) :
    do_POST (pstr "/clear") none isJson bodyParses spawn ts ⟨none, none⟩ =
      (.jsonOk 200 (pstr "\x7b\"status\": \"success\"\x7d"), ⟨none, none⟩) := rfl

end WebServer
